import Mathlib

/-!
Shallow embedding of the lucidfiles backend (Node/Express gateway over a
Python indexing worker) together with the frontend's search-score display
logic, and proofs about the behaviour of the embedded operations.

Sources embedded here:
* `src/backend/src/db/index.js` — the SQLite registry (tables
  `directories` and `files`) and its access functions `addDirectory`,
  `upsertFile`, `removeFile`, `getFile`.
* `src/backend/src/watcher/watcherManager.js` — the chokidar watcher
  manager: `startWatcher`, `stopWatcher`, and the three event handlers.
* `src/backend/src/routes/files.js` — the `/index-file`, `/reindex-file`
  and `/remove-file` routes.
* `src/backend/src/routes/directories.js` — the `/set-directory` route.
* `src/backend/src/server.js` — watcher initialisation on startup.
* the backend `app.js` — the `/health` route.
* `src/frontend/src/hooks/useSearch.js` — score normalisation for display.

The Python worker's own source is not part of the repository snapshot;
where its effect on the external vector store matters, the corresponding
definition is modelled from the spec and marked as such in its doc
comment.
-/

namespace LucidFiles

/-! ### Registry database (src/backend/src/db/index.js)

A row of the `directories` table: `id INTEGER PRIMARY KEY AUTOINCREMENT`,
`path TEXT UNIQUE NOT NULL`, `added_at TEXT NOT NULL`. -/

structure DirRow where
  id : Nat
  path : String
  added_at : String
deriving Repr, DecidableEq

/-- A row of the `files` table: `path TEXT UNIQUE NOT NULL`, `dir_id`,
`checksum`, `last_indexed`, `status TEXT DEFAULT 'pending'`. -/
structure FileRow where
  path : String
  dir_id : Option Nat
  checksum : Option String
  last_indexed : String
  status : String
deriving Repr, DecidableEq

/-- The registry database state: the two tables plus the next
autoincrement id for `directories`. -/
structure Db where
  dirs : List DirRow
  files : List FileRow
  nextId : Nat
deriving Repr, DecidableEq

/-- The empty database right after `initializeDatabase` (autoincrement
ids start at 1). -/
def dbEmpty : Db := ⟨[], [], 1⟩

/-- Query `SELECT * FROM directories WHERE path = ?` (first row). -/
def Db.findDir (db : Db) (p : String) : Option DirRow :=
  db.dirs.find? (fun r => r.path == p)

/-- Function `addDirectory`: `INSERT OR IGNORE INTO directories (path, added_at)
VALUES (?, datetime('now'))` followed by `SELECT * FROM directories WHERE
path = ?`; returns the row (existing or fresh) and the new state. -/
def Db.addDirectory (db : Db) (p now : String) : Option DirRow × Db :=
  match db.findDir p with
  | some row => (some row, db)
  | none =>
    let row : DirRow := ⟨db.nextId, p, now⟩
    (some row, { db with dirs := db.dirs ++ [row], nextId := db.nextId + 1 })

/-- The row update performed by `ON CONFLICT(path) DO UPDATE SET
checksum=@checksum, last_indexed=@last_indexed, status=@status`
(note: `dir_id` is not updated). -/
def updateRow (r f : FileRow) : FileRow :=
  { r with checksum := f.checksum, last_indexed := f.last_indexed, status := f.status }

/-- Body of `upsertFile` at the level of the `files` table contents. -/
def upsertRow (l : List FileRow) (f : FileRow) : List FileRow :=
  if l.any (fun r => r.path == f.path) then
    l.map (fun r => if r.path == f.path then updateRow r f else r)
  else
    l ++ [f]

/-- Function `upsertFile`: `INSERT INTO files ... ON CONFLICT(path) DO UPDATE SET
checksum, last_indexed, status`. -/
def Db.upsertFile (db : Db) (f : FileRow) : Db :=
  { db with files := upsertRow db.files f }

/-- Function `removeFile`: `DELETE FROM files WHERE path = ?`. -/
def Db.removeFile (db : Db) (p : String) : Db :=
  { db with files := db.files.filter (fun r => !(r.path == p)) }

/-- Function `getFile`: `SELECT * FROM files WHERE path = ?` (first row or
nothing). -/
def Db.getFile (db : Db) (p : String) : Option FileRow :=
  db.files.find? (fun r => r.path == p)

/-! ### Watcher manager (src/backend/src/watcher/watcherManager.js)

The manager keeps `const watchers = new Map()` keyed by directory path; we
model the key set as a list in insertion order. -/

abbrev Watchers := List String

/-- Function `startWatcher(dirPath)`: `if (watchers.has(dirPath)) return;` then
create a chokidar watcher and `watchers.set(dirPath, watcher)`. -/
def startWatcher (ws : Watchers) (p : String) : Watchers :=
  if ws.contains p then ws else ws ++ [p]

/-- Function `stopWatcher(dirPath)`: `const w = watchers.get(dirPath); if (w)
then close and watchers.delete(dirPath)`. -/
def stopWatcher (ws : Watchers) (p : String) : Watchers :=
  if ws.contains p then ws.filter (fun q => !(q == p)) else ws

/-- A filesystem event delivered by chokidar to an active watcher. -/
inductive FsEvent where
  | add (path : String)
  | change (path : String)
  | unlink (path : String)
deriving Repr, DecidableEq

/-- A call made to the worker client (`src/backend/src/lib/workerClient.js`). -/
inductive WorkerCall where
  | indexFile (path : String)
  | reindexFile (path : String)
  | removeFile (path : String)
deriving Repr, DecidableEq

/-- The outcome of an awaited worker HTTP call: the resolved response
data, or a thrown error (axios rejects on network failure and on any
non-2xx status). -/
inductive WorkerOutcome (α : Type) where
  | ok (data : α)
  | error (msg : String)
deriving Repr, DecidableEq

/-- The response fields of a successful worker index/reindex call that
the backend reads: `data.checksum` (possibly absent) and the number of
chunks written. -/
structure IndexData where
  checksum : Option String
  nchunks : Nat
deriving Repr, DecidableEq

/-- Which worker-client call each watcher event handler makes
(watcherManager.js: `add` → `worker.indexFile`, `change` →
`worker.reindexFile`, `unlink` → `worker.removeFile`). -/
def eventWorkerCall : FsEvent → WorkerCall
  | .add p => .indexFile p
  | .change p => .reindexFile p
  | .unlink p => .removeFile p

/-- The registry effect of one watcher event handler, given the awaited
worker outcome: on success `add`/`change` run `db.upsertFile` with
`status: 'indexed'` and `unlink` runs `db.removeFile`; the catch blocks
only log, so a failed worker call leaves the registry untouched. -/
def handleEvent (ev : FsEvent) (o : WorkerOutcome IndexData) (now : String) (db : Db) : Db :=
  match ev, o with
  | .add p, .ok d => db.upsertFile ⟨p, none, d.checksum, now, "indexed"⟩
  | .change p, .ok d => db.upsertFile ⟨p, none, d.checksum, now, "indexed"⟩
  | .unlink p, .ok _ => db.removeFile p
  | _, .error _ => db

/-- The chokidar watcher is created with `\x7b persistent, ignoreInitial,
depth: 99 \x7d` and the three `.on` handlers fire once per delivered
event; there is no timer, queue or coalescing anywhere in
watcherManager.js, so a sequence of delivered events produces exactly the
corresponding sequence of worker calls, in order. -/
def dispatchEvents (evs : List FsEvent) : List WorkerCall :=
  evs.map eventWorkerCall

/-- Startup function in server.js: `db.listDirectories().forEach(dir
=> watcherManager.startWatcher(dir.path))` (per-directory errors are
caught and logged). -/
def initWatchers (db : Db) (ws : Watchers) : Watchers :=
  db.dirs.foldl (fun acc d => startWatcher acc d.path) ws

/-! ### Vector store (external; effects modelled from the spec)

The Python worker that owns the vector store is not in the repository
snapshot; its store effects are modelled from the spec. -/

/-- A stored vector point as the spec describes it: id derived from
`(path, digest, chunk_index)` with a payload carrying `file_path`. Only
the fields the claims mention are kept. -/
structure VPoint where
  file_path : String
  digest : String
  chunk_index : Nat
deriving Repr, DecidableEq

abbrev VectorStore := List VPoint

/-- Modelled from the spec: the worker's `delete_by_file(path)` removes
every point whose payload `file_path` equals the given path. -/
def deleteByFile (vs : VectorStore) (p : String) : VectorStore :=
  vs.filter (fun pt => !(pt.file_path == p))

/-- Modelled from the spec: `count_by_file(path)` — the number of points
whose payload `file_path` equals the given path. -/
def countByFile (vs : VectorStore) (p : String) : Nat :=
  (vs.filter (fun pt => pt.file_path == p)).length

/-- Modelled from the spec: a successful worker index/reindex of a file
replaces the file's chunk set in the store — delete-then-insert under
stable point ids derived from `(path, digest, chunk_index)` (spec §4.6
step 6). -/
def workerIndexPoints (p digest : String) (n : Nat) (vs : VectorStore) : VectorStore :=
  deleteByFile vs p ++ (List.range n).map (fun i => ⟨p, digest, i⟩)

/-! ### File routes (src/backend/src/routes/files.js)

Each handler destructures `const \x7b path \x7d = req.body` (so a missing
field yields `undefined`), awaits the worker call inside `try`, updates
the registry, and answers `res.json(...)` (status 200); the catch block
answers `res.status(500)`. There is no validation and no 400/404 branch.
A missing path makes either the worker call or the `NOT NULL` /
parameter binding in better-sqlite3 throw, landing in the catch block,
so the `none` case returns 500 with no state change. -/

/-- Route `POST /index-file`: returns (HTTP status, registry, vector store). -/
def indexFileRoute : Option String → WorkerOutcome IndexData → String → Db → VectorStore → Nat × Db × VectorStore
  | none, _, _, db, vs => (500, db, vs)
  | some p, .ok d, now, db, vs =>
    (200, db.upsertFile ⟨p, none, d.checksum, now, "indexed"⟩,
      workerIndexPoints p (d.checksum.getD "") d.nchunks vs)
  | some _, .error _, _, db, vs => (500, db, vs)

/-- Route `POST /reindex-file`: same control flow as `/index-file` with
`worker.reindexFile` in place of `worker.indexFile`. -/
def reindexFileRoute : Option String → WorkerOutcome IndexData → String → Db → VectorStore → Nat × Db × VectorStore
  | none, _, _, db, vs => (500, db, vs)
  | some p, .ok d, now, db, vs =>
    (200, db.upsertFile ⟨p, none, d.checksum, now, "indexed"⟩,
      workerIndexPoints p (d.checksum.getD "") d.nchunks vs)
  | some _, .error _, _, db, vs => (500, db, vs)

/-- Route `DELETE /remove-file`: `await worker.removeFile(path); db.removeFile(path)`. -/
def removeFileRoute : Option String → WorkerOutcome Unit → Db → VectorStore → Nat × Db × VectorStore
  | none, _, db, vs => (500, db, vs)
  | some p, .ok _, db, vs => (200, db.removeFile p, deleteByFile vs p)
  | some _, .error _, db, vs => (500, db, vs)

/-! ### Directory route (src/backend/src/routes/directories.js) -/

/-- The filesystem checks `/set-directory` performs (`fs.existsSync` and
`fs.statSync(path).isDirectory()`). -/
structure FsView where
  existsSync : String → Bool
  isDirectory : String → Bool

/-- Route `POST /set-directory`: validate (`!path || !fs.existsSync(path) ||
!fs.statSync(path).isDirectory()` → 400), then `db.addDirectory(path)`
BEFORE the try block, then `await worker.indexDirectory(path)`; on
success `watcher.startWatcher(path)` and 200, on failure 500 (the
registration stays, no watcher is started). -/
def setDirectoryRoute (bodyPath : Option String) (fsv : FsView)
    (o : WorkerOutcome Unit) (now : String) (db : Db) (ws : Watchers) :
    Nat × Db × Watchers :=
  match bodyPath with
  | none => (400, db, ws)
  | some p =>
    if p == "" || !(fsv.existsSync p) || !(fsv.isDirectory p) then
      (400, db, ws)
    else
      let db1 := (db.addDirectory p now).2
      match o with
      | .ok _ => (200, db1, startWatcher ws p)
      | .error _ => (500, db1, ws)

/-! ### Health route (backend app.js) -/

/-- A JSON value, as far as the health body needs. -/
inductive Json where
  | bool (b : Bool)
  | str (s : String)
  | num (n : Int)
  | obj (fields : List (String × Json))

/-- Field lookup in a JSON object body. -/
def lookupField (body : List (String × Json)) (k : String) : Option Json :=
  (body.find? (fun kv => kv.1 == k)).map (fun kv => kv.2)

/-- The backend gateway's `GET /health` handler: `(req, res) =>
res.json(\x7b ok: true \x7d)`. -/
def healthBody : List (String × Json) := [("ok", Json.bool true)]

/-! ### Frontend score normalisation (src/frontend/src/hooks/useSearch.js)

Raw scores are modelled as rationals; `Math.round` rounds half towards
positive infinity. -/

/-- JavaScript `Math.round`: floor of the argument plus one half. -/
def jsRound (q : ℚ) : ℤ := ⌊q + 1 / 2⌋

/-- JavaScript `Math.max(...scores)` over a non-empty list (the empty case is
unused by the hook's non-empty path; 0 is an arbitrary placeholder). -/
def maxScore : List ℚ → ℚ
  | [] => 0
  | x :: xs => xs.foldl max x

/-- JavaScript `Math.min(...scores)` over a non-empty list. -/
def minScore : List ℚ → ℚ
  | [] => 0
  | x :: xs => xs.foldl min x

/-- The per-result display value computed in `useSearch.search`: 100 when
all scores coincide; otherwise `Math.round((score / maxScore) * 100)`
when the maximum is positive, else min–max rescaling; finally clamped
from below by `Math.max(1, ·)`. -/
def normalizedMatch (mx mn s : ℚ) : ℤ :=
  max 1
    (if mx = mn then 100
     else if 0 < mx then jsRound (s / mx * 100)
     else jsRound ((s - mn) / (mx - mn) * 100))

/-- The list of displayed match values for a list of raw scores. -/
def matchValues (scores : List ℚ) : List ℤ :=
  scores.map (normalizedMatch (maxScore scores) (minScore scores))

/-! ### Path normalisation (for the directory-uniqueness claim) -/

/-- Modelled from the spec: normalisation of an absolute directory path
(the spec's invariant speaks of "normalized absolute path"); at minimum
it removes a trailing slash. The backend itself performs no
normalisation and registers path strings verbatim. -/
def normalizePath (p : String) : String :=
  match p.toList.getLast? with
  | some '/' => if p.toList.length > 1 then String.mk p.toList.dropLast else p
  | _ => p

/-! ### Helper lemmas about the registry -/

theorem upsertRow_cons_ne (a : FileRow) (l : List FileRow) (f : FileRow)
    (h : (a.path == f.path) = false) :
    upsertRow (a :: l) f = a :: upsertRow l f := by
  have hne : ¬ a.path = f.path := by simpa using h
  unfold upsertRow
  cases hany : l.any (fun r => r.path == f.path) with
  | true => simp [List.any_cons, h, hany, hne]
  | false => simp [List.any_cons, h, hany, hne]

theorem upsertRow_cons_eq (a : FileRow) (l : List FileRow) (f : FileRow)
    (h : (a.path == f.path) = true) :
    upsertRow (a :: l) f
      = updateRow a f :: l.map (fun r => if r.path == f.path then updateRow r f else r) := by
  have hany : ((a :: l).any (fun r => r.path == f.path)) = true := by
    simp [List.any_cons, h]
  have heq : a.path = f.path := by simpa using h
  unfold upsertRow
  rw [if_pos hany, List.map_cons, if_pos h]

theorem find?_upsertRow (l : List FileRow) (f : FileRow) :
    ((upsertRow l f).find? (fun r => r.path == f.path)).map FileRow.status = some f.status := by
  induction l with
  | nil => simp [upsertRow, List.find?]
  | cons a l ih =>
    cases h : a.path == f.path with
    | true =>
      have hu : ((updateRow a f).path == f.path) = true := h
      rw [upsertRow_cons_eq a l f h,
        List.find?_cons_of_pos (p := fun (r : FileRow) => r.path == f.path) _ hu]
      rfl
    | false =>
      rw [upsertRow_cons_ne a l f h,
        List.find?_cons_of_neg (p := fun (r : FileRow) => r.path == f.path) _ (by simpa using h)]
      exact ih

theorem getFile_upsertFile_status (db : Db) (f : FileRow) :
    ((db.upsertFile f).getFile f.path).map FileRow.status = some f.status := by
  unfold Db.upsertFile Db.getFile
  exact find?_upsertRow db.files f

theorem getFile_removeFile (db : Db) (p : String) :
    (db.removeFile p).getFile p = none := by
  unfold Db.removeFile Db.getFile
  rw [List.find?_eq_none]
  intro x hx
  have hmem := List.mem_filter.mp hx
  simp only [Bool.not_eq_true'] at hmem
  simp [hmem.2]

theorem findDir_addDirectory_isSome (db : Db) (p now : String) :
    ((db.addDirectory p now).2.findDir p).isSome := by
  unfold Db.addDirectory
  cases h : db.findDir p with
  | some r => simp [h]
  | none =>
    simp only [Db.findDir] at h ⊢
    simp [List.find?_append, h, List.find?]

/-! ### Helper lemmas about the vector store -/

theorem filter_deleteByFile (vs : VectorStore) (p : String) :
    (deleteByFile vs p).filter (fun pt => pt.file_path == p) = [] := by
  rw [List.filter_eq_nil_iff]
  intro a ha
  have hmem := List.mem_filter.mp ha
  simp only [Bool.not_eq_true'] at hmem
  simp [hmem.2]

theorem countByFile_deleteByFile (vs : VectorStore) (p : String) :
    countByFile (deleteByFile vs p) p = 0 := by
  unfold countByFile
  rw [filter_deleteByFile]
  rfl

/-! ### Helper lemmas about the watcher set -/

theorem contains_startWatcher_self (ws : Watchers) (p : String) :
    (startWatcher ws p).contains p = true := by
  unfold startWatcher
  cases h : ws.contains p with
  | true => simpa using h
  | false =>
    simp only [h, Bool.false_eq_true, if_false]
    exact List.elem_iff.mpr (List.mem_append_right ws (List.mem_singleton.mpr rfl))

theorem contains_startWatcher_of (ws : Watchers) (q r : String)
    (h : ws.contains r = true) :
    (startWatcher ws q).contains r = true := by
  unfold startWatcher
  cases hq : ws.contains q with
  | true => simpa using h
  | false =>
    simp only [hq, Bool.false_eq_true, if_false]
    exact List.elem_iff.mpr (List.mem_append_left _ (List.elem_iff.mp h))

theorem contains_foldl_startWatcher (dirs : List DirRow) (ws : Watchers) (p : String)
    (h : ws.contains p = true) :
    (dirs.foldl (fun acc d => startWatcher acc d.path) ws).contains p = true := by
  induction dirs generalizing ws with
  | nil => simpa using h
  | cons a l ih =>
    rw [List.foldl_cons]
    exact ih _ (contains_startWatcher_of ws a.path p h)

theorem contains_initWatchers (dirs : List DirRow) (ws : Watchers) (p : String)
    (h : ∃ d ∈ dirs, d.path = p) :
    (dirs.foldl (fun acc d => startWatcher acc d.path) ws).contains p = true := by
  induction dirs generalizing ws with
  | nil => exact absurd h (by simp)
  | cons a l ih =>
    obtain ⟨d, hd, hdp⟩ := h
    rcases List.mem_cons.mp hd with hda | hdl
    · subst hda
      rw [List.foldl_cons]
      exact contains_foldl_startWatcher l _ p (by rw [← hdp]; exact contains_startWatcher_self ws d.path)
    · rw [List.foldl_cons]
      exact ih _ ⟨d, hdl, hdp⟩

theorem startWatcher_of_contains (ws : Watchers) (p : String)
    (h : ws.contains p = true) : startWatcher ws p = ws := by
  unfold startWatcher
  rw [if_pos h]

theorem exists_dir_of_findDir_isSome (db : Db) (p : String)
    (h : (db.findDir p).isSome = true) : ∃ d ∈ db.dirs, d.path = p := by
  obtain ⟨r, hr⟩ := Option.isSome_iff_exists.mp h
  exact ⟨r, List.mem_of_find?_eq_some hr, by simpa using List.find?_some hr⟩

/-! ### Claim theorems -/

/-- C1: for every filesystem event delivered to an active directory
watcher: a `create` (`add`) event invokes `worker.indexFile(path)` and on
success upserts the file record with status `indexed`; a `modify`
(`change`) event invokes `worker.reindexFile(path)` and on success
upserts with status `indexed`; a `delete` (`unlink`) event invokes
`worker.removeFile(path)` and on success deletes the file record, so a
subsequent lookup finds nothing. -/
theorem watcher_event_dispatch (p : String) (d : IndexData) (now : String) (db : Db) :
    eventWorkerCall (FsEvent.add p) = WorkerCall.indexFile p ∧
    eventWorkerCall (FsEvent.change p) = WorkerCall.reindexFile p ∧
    eventWorkerCall (FsEvent.unlink p) = WorkerCall.removeFile p ∧
    ((handleEvent (FsEvent.add p) (WorkerOutcome.ok d) now db).getFile p).map FileRow.status
      = some "indexed" ∧
    ((handleEvent (FsEvent.change p) (WorkerOutcome.ok d) now db).getFile p).map FileRow.status
      = some "indexed" ∧
    (handleEvent (FsEvent.unlink p) (WorkerOutcome.ok d) now db).getFile p = none := by
  refine ⟨rfl, rfl, rfl, ?_, ?_, ?_⟩
  · exact getFile_upsertFile_status db ⟨p, none, d.checksum, now, "indexed"⟩
  · exact getFile_upsertFile_status db ⟨p, none, d.checksum, now, "indexed"⟩
  · exact getFile_removeFile db p

/-- C2 counterexample: the watcher performs no debouncing. In a burst of
two events for the same path within any window, both events reach the
worker — the earlier `add` is dispatched, and the dispatched sequence is
not just the last event's action; likewise an `unlink` followed by an
`add` does not suppress the `add`, so `delete` does not win over a later
pending `create`. -/
theorem watcher_burst_counterexample :
    dispatchEvents [FsEvent.add "/w/doc.txt", FsEvent.change "/w/doc.txt"]
      = [WorkerCall.indexFile "/w/doc.txt", WorkerCall.reindexFile "/w/doc.txt"] ∧
    WorkerCall.indexFile "/w/doc.txt"
      ∈ dispatchEvents [FsEvent.add "/w/doc.txt", FsEvent.change "/w/doc.txt"] ∧
    dispatchEvents [FsEvent.unlink "/w/doc.txt", FsEvent.add "/w/doc.txt"]
      ≠ [WorkerCall.removeFile "/w/doc.txt"] := by
  refine ⟨rfl, ?_, ?_⟩
  · exact List.mem_cons_self _ _
  · decide

/-- C2 (amended): the watcher does not debounce at all: every delivered
event is dispatched to the worker immediately in arrival order — the
dispatched call sequence has one call per event, and every event's
action reaches the worker regardless of any later events for the same
path; a `delete` gets no special precedence. -/
theorem watcher_no_debounce (evs : List FsEvent) :
    (dispatchEvents evs).length = evs.length ∧
    ∀ ev ∈ evs, eventWorkerCall ev ∈ dispatchEvents evs := by
  constructor
  · simp [dispatchEvents]
  · intro ev h
    exact List.mem_map_of_mem eventWorkerCall h

/-- C2 witness: concrete burst of two events for one path — both are
dispatched. -/
theorem watcher_no_debounce_witness :
    (dispatchEvents [FsEvent.add "/w/a.txt", FsEvent.change "/w/a.txt"]).length = 2 ∧
    WorkerCall.indexFile "/w/a.txt"
      ∈ dispatchEvents [FsEvent.add "/w/a.txt", FsEvent.change "/w/a.txt"] := by
  refine ⟨?_, ?_⟩
  · rw [(watcher_no_debounce [FsEvent.add "/w/a.txt", FsEvent.change "/w/a.txt"]).1]
    rfl
  · exact (watcher_no_debounce [FsEvent.add "/w/a.txt", FsEvent.change "/w/a.txt"]).2
      (FsEvent.add "/w/a.txt") (List.mem_cons_self _ _)

/-- C3 counterexample: a failed index operation does not set the file's
registry record to status `failed` — with a record in status `pending`, a
`/index-file` request whose worker call fails leaves the record in
status `pending`, not `failed`. -/
theorem failed_index_not_marked_failed :
    ((indexFileRoute (some "/docs/a.txt") (WorkerOutcome.error "parse failed") "t1"
        ⟨[], [⟨"/docs/a.txt", none, none, "", "pending"⟩], 1⟩ []).2.1.getFile
        "/docs/a.txt").map FileRow.status = some "pending" ∧
    ¬ ((indexFileRoute (some "/docs/a.txt") (WorkerOutcome.error "parse failed") "t1"
        ⟨[], [⟨"/docs/a.txt", none, none, "", "pending"⟩], 1⟩ []).2.1.getFile
        "/docs/a.txt").map FileRow.status = some "failed" := by
  constructor
  · rfl
  · decide

/-- C3 (amended): when the worker call behind an index or reindex
operation fails (throws), the backend leaves the registry completely
untouched — the file record keeps its previous status and is never set
to `failed`, and nothing is removed; the record is written with status
`indexed` exactly when the worker call succeeds. This holds for both the
HTTP routes and the watcher event handlers. -/
theorem failed_ops_leave_registry_unchanged (p msg now : String) (db : Db)
    (vs : VectorStore) (d : IndexData) :
    (indexFileRoute (some p) (WorkerOutcome.error msg) now db vs).2.1 = db ∧
    (reindexFileRoute (some p) (WorkerOutcome.error msg) now db vs).2.1 = db ∧
    handleEvent (FsEvent.add p) (WorkerOutcome.error msg) now db = db ∧
    handleEvent (FsEvent.change p) (WorkerOutcome.error msg) now db = db ∧
    ((indexFileRoute (some p) (WorkerOutcome.ok d) now db vs).2.1.getFile p).map FileRow.status
      = some "indexed" ∧
    ((reindexFileRoute (some p) (WorkerOutcome.ok d) now db vs).2.1.getFile p).map FileRow.status
      = some "indexed" := by
  refine ⟨rfl, rfl, rfl, rfl, ?_, ?_⟩
  · exact getFile_upsertFile_status db ⟨p, none, d.checksum, now, "indexed"⟩
  · exact getFile_upsertFile_status db ⟨p, none, d.checksum, now, "indexed"⟩

/-- C4 counterexample: a request to `/index-file` with the `path` field
missing is answered with status 500 (the worker call rejects and the
catch block fires), not with the claimed 400. -/
theorem missing_path_returns_500 :
    (indexFileRoute none (WorkerOutcome.error "path required") "t0" dbEmpty []).1 = 500 ∧
    ¬ (indexFileRoute none (WorkerOutcome.error "path required") "t0" dbEmpty []).1 = 400 := by
  exact ⟨rfl, by decide⟩

/-- C4 (amended): the file-operation routes perform no input validation
at all: each returns 200 when the awaited worker call succeeds and 500
whenever it fails — including for a missing `path` field or a file that
does not exist on disk — and can never answer 400 or 404. Only
`POST /set-directory` validates its input, answering 400 with no state
change for a missing body field or a path that fails the directory
checks. -/
theorem fileRoutes_no_validation (bp : Option String) (o : WorkerOutcome IndexData)
    (u : WorkerOutcome Unit) (now : String) (db : Db) (vs : VectorStore)
    (fsv : FsView) (ws : Watchers) (p : String) :
    ((indexFileRoute bp o now db vs).1 = 200 ∨ (indexFileRoute bp o now db vs).1 = 500) ∧
    ((reindexFileRoute bp o now db vs).1 = 200 ∨ (reindexFileRoute bp o now db vs).1 = 500) ∧
    ((removeFileRoute bp u db vs).1 = 200 ∨ (removeFileRoute bp u db vs).1 = 500) ∧
    setDirectoryRoute none fsv u now db ws = (400, db, ws) ∧
    (fsv.existsSync p = false → setDirectoryRoute (some p) fsv u now db ws = (400, db, ws)) := by
  refine ⟨?_, ?_, ?_, rfl, ?_⟩
  · cases bp with
    | none => exact Or.inr rfl
    | some q => cases o with
      | ok _ => exact Or.inl rfl
      | error _ => exact Or.inr rfl
  · cases bp with
    | none => exact Or.inr rfl
    | some q => cases o with
      | ok _ => exact Or.inl rfl
      | error _ => exact Or.inr rfl
  · cases bp with
    | none => exact Or.inr rfl
    | some q => cases u with
      | ok _ => exact Or.inl rfl
      | error _ => exact Or.inr rfl
  · intro h
    simp only [setDirectoryRoute, h]
    simp

/-- C4 witness: with a filesystem on which the path does not exist,
`/set-directory` answers 400 and changes nothing. -/
theorem fileRoutes_no_validation_witness :
    (FsView.mk (fun _ => false) (fun _ => false)).existsSync "/nope" = false ∧
    setDirectoryRoute (some "/nope") (FsView.mk (fun _ => false) (fun _ => false))
      (WorkerOutcome.ok ()) "t0" dbEmpty [] = (400, dbEmpty, []) :=
  ⟨rfl,
    (fileRoutes_no_validation (some "/nope") (WorkerOutcome.ok ⟨none, 0⟩)
      (WorkerOutcome.ok ()) "t0" dbEmpty [] (FsView.mk (fun _ => false) (fun _ => false))
      [] "/nope").2.2.2.2 rfl⟩

/-- C5 counterexample: directory registrations are NOT unique by
normalized absolute path — the backend registers path strings verbatim,
so registering `/home/u/notes` and then `/home/u/notes/` (the same
directory after normalization) leaves two registration rows whose
normalized paths coincide. -/
theorem unnormalized_duplicate_registration :
    (((dbEmpty.addDirectory "/home/u/notes" "t1").2.addDirectory "/home/u/notes/" "t2").2.dirs.map
        DirRow.path) = ["/home/u/notes", "/home/u/notes/"] ∧
    normalizePath "/home/u/notes/" = normalizePath "/home/u/notes" ∧
    (((dbEmpty.addDirectory "/home/u/notes" "t1").2.addDirectory "/home/u/notes/" "t2").2.dirs.countP
        (fun r => normalizePath r.path == "/home/u/notes")) = 2 := by
  refine ⟨by decide, by decide, by decide⟩

/-- C5 (amended): registrations are unique by EXACT path string:
`addDirectory` with a path that already has a row returns that existing
row and leaves the database unchanged, and in general the number of rows
carrying the path after a call is `max 1` of the number before, so no
call ever creates a second row for the same string. Paths differing only
by normalization (for example a trailing slash) are registered as
distinct rows. -/
theorem addDirectory_exact_path_unique (db : Db) (p now : String) :
    (∀ r, db.findDir p = some r → db.addDirectory p now = (some r, db)) ∧
    (db.addDirectory p now).2.dirs.countP (fun r => r.path == p)
      = max 1 (db.dirs.countP (fun r => r.path == p)) := by
  constructor
  · intro r hr
    unfold Db.addDirectory
    rw [hr]
  · unfold Db.addDirectory
    cases hr : db.findDir p with
    | some r =>
      rw [Db.findDir] at hr
      have hmem := List.mem_of_find?_eq_some hr
      have hpred := List.find?_some hr
      have hpos : 0 < db.dirs.countP (fun x => x.path == p) :=
        List.countP_pos_iff.mpr ⟨r, hmem, hpred⟩
      simp [Nat.max_eq_right hpos]
    | none =>
      have hz : db.dirs.countP (fun x : DirRow => x.path == p) = 0 := by
        rw [List.countP_eq_zero]
        intro a ha
        have hfa := List.find?_eq_none.mp hr a ha
        simpa using hfa
      simp [List.countP_append, hz]

/-- C5 witness: re-registering an already-registered exact path returns
the existing row and changes nothing. -/
theorem addDirectory_exact_path_unique_witness :
    (Db.findDir ⟨[⟨1, "/data", "t0"⟩], [], 2⟩ "/data" = some ⟨1, "/data", "t0"⟩) ∧
    Db.addDirectory ⟨[⟨1, "/data", "t0"⟩], [], 2⟩ "/data" "t9"
      = (some ⟨1, "/data", "t0"⟩, ⟨[⟨1, "/data", "t0"⟩], [], 2⟩) :=
  ⟨by decide,
    (addDirectory_exact_path_unique ⟨[⟨1, "/data", "t0"⟩], [], 2⟩ "/data" "t9").1
      ⟨1, "/data", "t0"⟩ (by decide)⟩

/-- C6: for every path, `/index-file` followed by a successful
`/remove-file` leaves no file record for the path in the registry (a
lookup returns nothing) and no vector points for the path in the store
(`count_by_file` is 0 and the by-path filter is empty). -/
theorem index_then_remove (p now : String) (o : WorkerOutcome IndexData)
    (db : Db) (vs : VectorStore) :
    (removeFileRoute (some p) (WorkerOutcome.ok ())
        (indexFileRoute (some p) o now db vs).2.1
        (indexFileRoute (some p) o now db vs).2.2).2.1.getFile p = none ∧
    countByFile (removeFileRoute (some p) (WorkerOutcome.ok ())
        (indexFileRoute (some p) o now db vs).2.1
        (indexFileRoute (some p) o now db vs).2.2).2.2 p = 0 ∧
    (removeFileRoute (some p) (WorkerOutcome.ok ())
        (indexFileRoute (some p) o now db vs).2.1
        (indexFileRoute (some p) o now db vs).2.2).2.2.filter
        (fun pt => pt.file_path == p) = [] := by
  refine ⟨?_, ?_, ?_⟩
  · exact getFile_removeFile _ p
  · exact countByFile_deleteByFile _ p
  · exact filter_deleteByFile _ p

/-- C7 counterexample: the backend's `GET /health` body is `\x7b ok: true \x7d`;
it contains neither a `status` field nor a `model_info` object. -/
theorem health_missing_model_info :
    lookupField healthBody "status" = none ∧
    lookupField healthBody "model_info" = none := by
  exact ⟨rfl, rfl⟩

/-- C7 (amended): the backend's `GET /health` returns the single-field
body `\x7b ok: true \x7d`: a bare liveness flag with no `status` field
and no `model_info` object, so a caller cannot distinguish "model not
loaded" from "vector store unreachable" from "ready" through this
endpoint. -/
theorem health_body_shape :
    lookupField healthBody "ok" = some (Json.bool true) ∧
    healthBody.length = 1 ∧
    lookupField healthBody "status" = none ∧
    lookupField healthBody "model_info" = none := by
  exact ⟨rfl, rfl, rfl, rfl⟩

/-- C8: watcher start/stop is idempotent: calling `startWatcher(p)` twice
equals calling it once; after `startWatcher(p)` there is exactly one
watcher entry keyed by `p` when there was at most one before (the count
becomes `max 1` of the previous count); and `stopWatcher(p)` with no
watcher registered for `p` leaves the watcher set unchanged. -/
theorem watcher_start_stop_idempotent (ws : Watchers) (p : String) :
    startWatcher (startWatcher ws p) p = startWatcher ws p ∧
    (startWatcher ws p).countP (fun q => q == p)
      = max 1 (ws.countP (fun q => q == p)) ∧
    (ws.contains p = false → stopWatcher ws p = ws) := by
  refine ⟨?_, ?_, ?_⟩
  · exact startWatcher_of_contains _ _ (contains_startWatcher_self ws p)
  · unfold startWatcher
    cases h : ws.contains p with
    | true =>
      have hmem : p ∈ ws := List.elem_iff.mp h
      have hpos : 0 < ws.countP (fun q => q == p) :=
        List.countP_pos_iff.mpr ⟨p, hmem, by simp⟩
      simp [Nat.max_eq_right hpos]
    | false =>
      have hz : ws.countP (fun q : String => q == p) = 0 := by
        rw [List.countP_eq_zero]
        intro a ha
        intro hap
        have hmem : p ∈ ws := by
          have hap2 : a = p := by simpa using hap
          rwa [← hap2]
        have hc : ws.contains p = true := List.elem_iff.mpr hmem
        rw [h] at hc
        cases hc
      simp [List.countP_append, hz]
  · intro h
    unfold stopWatcher
    rw [h]
    simp

/-- C8 witness: starting twice for one concrete path, and stopping an
unregistered path, behave as stated. -/
theorem watcher_start_stop_idempotent_witness :
    (["/a"] : Watchers).contains "/b" = false ∧
    stopWatcher ["/a"] "/b" = ["/a"] :=
  ⟨by decide, (watcher_start_stop_idempotent ["/a"] "/b").2.2 (by decide)⟩

/-- C9: when the initial indexing inside `POST /set-directory` fails for
a valid directory path, the route answers 500, the directory
registration inserted before the try block remains in the database, and
no watcher is started by that request; a later server start
(`initializeWatchers`) nevertheless starts a watcher for every
registered directory, including this never-fully-indexed one. -/
theorem setDirectory_failure_keeps_registration (p now msg : String) (fsv : FsView)
    (db : Db) (ws : Watchers)
    (hne : (p == "") = false) (hex : fsv.existsSync p = true)
    (hdir : fsv.isDirectory p = true) :
    (setDirectoryRoute (some p) fsv (WorkerOutcome.error msg) now db ws).1 = 500 ∧
    ((setDirectoryRoute (some p) fsv (WorkerOutcome.error msg) now db ws).2.1.findDir p).isSome
      = true ∧
    (setDirectoryRoute (some p) fsv (WorkerOutcome.error msg) now db ws).2.2 = ws ∧
    (initWatchers (setDirectoryRoute (some p) fsv (WorkerOutcome.error msg) now db ws).2.1
      ws).contains p = true := by
  have heq : setDirectoryRoute (some p) fsv (WorkerOutcome.error msg) now db ws
      = (500, (db.addDirectory p now).2, ws) := by
    simp [setDirectoryRoute, hne, hex, hdir]
  rw [heq]
  refine ⟨rfl, ?_, rfl, ?_⟩
  · exact findDir_addDirectory_isSome db p now
  · exact contains_initWatchers _ ws p
      (exists_dir_of_findDir_isSome _ p (findDir_addDirectory_isSome db p now))

/-- C9 witness: concrete valid directory, failing worker indexing — the
registration persists, no watcher is started in the request, and the
next startup starts one. -/
theorem setDirectory_failure_keeps_registration_witness :
    (("/data/docs" == "") = false) ∧
    (FsView.mk (fun _ => true) (fun _ => true)).existsSync "/data/docs" = true ∧
    (FsView.mk (fun _ => true) (fun _ => true)).isDirectory "/data/docs" = true ∧
    ((setDirectoryRoute (some "/data/docs") (FsView.mk (fun _ => true) (fun _ => true))
        (WorkerOutcome.error "indexing failed") "t0" dbEmpty []).1 = 500 ∧
      ((setDirectoryRoute (some "/data/docs") (FsView.mk (fun _ => true) (fun _ => true))
        (WorkerOutcome.error "indexing failed") "t0" dbEmpty []).2.1.findDir
        "/data/docs").isSome = true ∧
      (setDirectoryRoute (some "/data/docs") (FsView.mk (fun _ => true) (fun _ => true))
        (WorkerOutcome.error "indexing failed") "t0" dbEmpty []).2.2 = [] ∧
      (initWatchers (setDirectoryRoute (some "/data/docs")
        (FsView.mk (fun _ => true) (fun _ => true))
        (WorkerOutcome.error "indexing failed") "t0" dbEmpty []).2.1 []).contains
        "/data/docs" = true) :=
  ⟨by decide, rfl, rfl,
    setDirectory_failure_keeps_registration "/data/docs" "t0" "indexing failed"
      (FsView.mk (fun _ => true) (fun _ => true)) dbEmpty [] (by decide) rfl rfl⟩

/-! ### Helper lemmas for the score normalisation -/

theorem le_foldl_max (xs : List ℚ) (a : ℚ) : a ≤ xs.foldl max a := by
  induction xs generalizing a with
  | nil => exact le_refl a
  | cons x xs ih => exact le_trans (le_max_left a x) (ih (max a x))

theorem mem_le_foldl_max (xs : List ℚ) (a : ℚ) : ∀ s ∈ xs, s ≤ xs.foldl max a := by
  induction xs generalizing a with
  | nil => intro s hs; cases hs
  | cons x xs ih =>
    intro s hs
    rcases List.mem_cons.mp hs with h | h
    · subst h
      exact le_trans (le_max_right a s) (le_foldl_max xs (max a s))
    · exact ih (max a x) s h

theorem le_maxScore (l : List ℚ) : ∀ s ∈ l, s ≤ maxScore l := by
  cases l with
  | nil => intro s hs; cases hs
  | cons x xs =>
    intro s hs
    rcases List.mem_cons.mp hs with h | h
    · subst h
      exact le_foldl_max xs s
    · exact mem_le_foldl_max xs x s h

theorem foldl_min_le (xs : List ℚ) (a : ℚ) : xs.foldl min a ≤ a := by
  induction xs generalizing a with
  | nil => exact le_refl a
  | cons x xs ih => exact le_trans (ih (min a x)) (min_le_left a x)

theorem foldl_min_le_mem (xs : List ℚ) (a : ℚ) : ∀ s ∈ xs, xs.foldl min a ≤ s := by
  induction xs generalizing a with
  | nil => intro s hs; cases hs
  | cons x xs ih =>
    intro s hs
    rcases List.mem_cons.mp hs with h | h
    · subst h
      exact le_trans (foldl_min_le xs (min a s)) (min_le_right a s)
    · exact ih (min a x) s h

theorem minScore_le (l : List ℚ) : ∀ s ∈ l, minScore l ≤ s := by
  cases l with
  | nil => intro s hs; cases hs
  | cons x xs =>
    intro s hs
    rcases List.mem_cons.mp hs with h | h
    · subst h
      exact foldl_min_le xs s
    · exact foldl_min_le_mem xs x s h

theorem foldl_min_mem (xs : List ℚ) (a : ℚ) :
    xs.foldl min a = a ∨ xs.foldl min a ∈ xs := by
  induction xs generalizing a with
  | nil => exact Or.inl rfl
  | cons x xs ih =>
    rcases ih (min a x) with h | h
    · rcases min_choice a x with hm | hm
      · exact Or.inl (by rw [List.foldl_cons, h, hm])
      · refine Or.inr ?_
        rw [List.foldl_cons, h, hm]
        exact List.mem_cons_self x xs
    · exact Or.inr (List.mem_cons_of_mem x (by rw [List.foldl_cons]; exact h))

theorem minScore_mem (l : List ℚ) (h : l ≠ []) : minScore l ∈ l := by
  cases l with
  | nil => exact absurd rfl h
  | cons x xs =>
    rcases foldl_min_mem xs x with h2 | h2
    · simp only [minScore, h2]
      exact List.mem_cons_self x xs
    · exact List.mem_cons_of_mem x (by simpa [minScore] using h2)

theorem jsRound_le_100 (q : ℚ) (h : q ≤ 100) : jsRound q ≤ 100 := by
  unfold jsRound
  calc ⌊q + 1 / 2⌋ ≤ ⌊(100 : ℚ) + 1 / 2⌋ := Int.floor_le_floor (by linarith)
    _ = 100 := by norm_num

/-- C10: for every list of raw scores received by the frontend, each
displayed match value computed by `useSearch` lies between 1 and 100;
when all raw scores are equal every result displays 100; and when the
maximum raw score is positive, the top-scoring result displays exactly
100. -/
theorem searchMatch_display_bounds (scores : List ℚ) :
    (∀ s ∈ scores,
      1 ≤ normalizedMatch (maxScore scores) (minScore scores) s ∧
      normalizedMatch (maxScore scores) (minScore scores) s ≤ 100) ∧
    ((∀ s ∈ scores, s = maxScore scores) →
      ∀ s ∈ scores, normalizedMatch (maxScore scores) (minScore scores) s = 100) ∧
    (0 < maxScore scores →
      normalizedMatch (maxScore scores) (minScore scores) (maxScore scores) = 100) := by
  refine ⟨?_, ?_, ?_⟩
  · intro s hs
    unfold normalizedMatch
    refine ⟨le_max_left 1 _, ?_⟩
    apply max_le (by norm_num)
    by_cases h1 : maxScore scores = minScore scores
    · rw [if_pos h1]
    · rw [if_neg h1]
      by_cases h2 : 0 < maxScore scores
      · rw [if_pos h2]
        apply jsRound_le_100
        have hsmx : s ≤ maxScore scores := le_maxScore scores s hs
        have hq : s / maxScore scores ≤ 1 := (div_le_one h2).mpr hsmx
        have := mul_le_mul_of_nonneg_right hq (by norm_num : (0 : ℚ) ≤ 100)
        simpa using this
      · rw [if_neg h2]
        apply jsRound_le_100
        have hmn_le : minScore scores ≤ s := minScore_le scores s hs
        have hs_le : s ≤ maxScore scores := le_maxScore scores s hs
        have hlt : minScore scores < maxScore scores :=
          lt_of_le_of_ne (le_trans hmn_le hs_le) (fun hmneq => h1 hmneq.symm)
        have hpos : 0 < maxScore scores - minScore scores := by linarith
        have hq : (s - minScore scores) / (maxScore scores - minScore scores) ≤ 1 :=
          (div_le_one hpos).mpr (by linarith)
        have := mul_le_mul_of_nonneg_right hq (by norm_num : (0 : ℚ) ≤ 100)
        simpa using this
  · intro hall s hs
    have hne : scores ≠ [] := List.ne_nil_of_mem hs
    have hmn_eq : minScore scores = maxScore scores :=
      hall (minScore scores) (minScore_mem scores hne)
    unfold normalizedMatch
    rw [if_pos hmn_eq.symm]
    norm_num
  · intro hpos
    unfold normalizedMatch
    by_cases h1 : maxScore scores = minScore scores
    · rw [if_pos h1]
      norm_num
    · rw [if_neg h1, if_pos hpos, div_self (ne_of_gt hpos)]
      norm_num [jsRound]

/-- C10 witness: for the concrete score list containing 2 twice, the
bounds hold, all-equal scores display 100, and the top score displays
100. -/
theorem searchMatch_display_bounds_witness :
    ((2 : ℚ) ∈ [(2 : ℚ), 2]) ∧
    (1 ≤ normalizedMatch (maxScore [(2 : ℚ), 2]) (minScore [(2 : ℚ), 2]) 2 ∧
      normalizedMatch (maxScore [(2 : ℚ), 2]) (minScore [(2 : ℚ), 2]) 2 ≤ 100) ∧
    (∀ s ∈ [(2 : ℚ), 2], s = maxScore [(2 : ℚ), 2]) ∧
    (∀ s ∈ [(2 : ℚ), 2], normalizedMatch (maxScore [(2 : ℚ), 2])
      (minScore [(2 : ℚ), 2]) s = 100) ∧
    (0 < maxScore [(2 : ℚ), 2]) ∧
    normalizedMatch (maxScore [(2 : ℚ), 2]) (minScore [(2 : ℚ), 2])
      (maxScore [(2 : ℚ), 2]) = 100 := by
  have hms : maxScore [(2 : ℚ), 2] = 2 := by simp [maxScore]
  have hmem : (2 : ℚ) ∈ [(2 : ℚ), 2] := List.mem_cons_self _ _
  have hall : ∀ s ∈ [(2 : ℚ), 2], s = maxScore [(2 : ℚ), 2] := by
    intro s hs
    rw [hms]
    rcases List.mem_cons.mp hs with h | h
    · exact h
    · simpa using h
  have hpos : 0 < maxScore [(2 : ℚ), 2] := by
    rw [hms]
    norm_num
  exact ⟨hmem, (searchMatch_display_bounds [(2 : ℚ), 2]).1 2 hmem, hall,
    (searchMatch_display_bounds [(2 : ℚ), 2]).2.1 hall, hpos,
    (searchMatch_display_bounds [(2 : ℚ), 2]).2.2 hpos⟩

end LucidFiles
